import Mathlib

/-!
Verification of `app/main.py` (FastAPI predict service).

Strings are modelled as `List Char`.  The two functions carrying the logic of
the service, `_simple_inference` and `predict`, are embedded below together
with the pieces of Python string semantics they rely on (`str.split()` and
`str.strip()` with no arguments, which operate on runs of whitespace).
-/

/-- Whitespace characters recognised by Python's `str.split()` / `str.strip()`
(modelled on the ASCII whitespace set: space, tab, newline, vertical tab,
form feed, carriage return). -/
def isPySpace (c : Char) : Bool :=
  c.toNat == 32 || c.toNat == 9 || c.toNat == 10 ||
  c.toNat == 11 || c.toNat == 12 || c.toNat == 13

/-- Python `text.strip()`: remove leading and trailing whitespace. -/
def pyStrip (s : List Char) : List Char :=
  ((s.dropWhile isPySpace).reverse.dropWhile isPySpace).reverse

/-- Helper for `pySplit`: scans the characters, accumulating the current token
in reverse in `acc`; whitespace closes the current token (if any), and the end
of the input flushes it. -/
def pySplitAux : List Char → List Char → List (List Char)
  | [], acc => if acc = [] then [] else [acc.reverse]
  | c :: cs, acc =>
    if isPySpace c then
      if acc = [] then pySplitAux cs [] else acc.reverse :: pySplitAux cs []
    else
      pySplitAux cs (c :: acc)

/-- Python `text.split()` (no separator argument): maximal runs of
non-whitespace characters, with leading/trailing/repeated whitespace
producing no empty tokens. -/
def pySplit (s : List Char) : List (List Char) :=
  pySplitAux s []

/-- The sort relation used by `sorted(words, key=lambda w: len(w), reverse=True)`:
`a` may come before `b` exactly when `len(a) >= len(b)`. -/
def lenGe (a b : List Char) : Prop :=
  b.length ≤ a.length

instance : DecidableRel lenGe := fun a b => Nat.decLe b.length a.length

instance : IsTotal (List Char) lenGe :=
  ⟨fun a b => Nat.le_total b.length a.length⟩

instance : IsTrans (List Char) lenGe :=
  ⟨fun _ _ _ hab hbc => Nat.le_trans hbc hab⟩

/-- One entry of the `predictions` list: the dict `{"token": t, "score": float(len(t))}`.
The score `float(len(t))` is an exact float for any list length arising here, so it is
modelled by the natural number it denotes. -/
structure ScoredToken where
  token : List Char
  score : Nat
deriving DecidableEq, Repr

/-- `_simple_inference(text, top_k)` from `app/main.py`:
`words = text.split()`; `scored = sorted(words, key=lambda w: len(w), reverse=True)`
(Python's `sorted` is a stable sort, embedded as `List.insertionSort lenGe`, which
is stable for `lenGe`); `top = scored[: max(1, top_k)]`; return
`[{"token": t, "score": float(len(t))} for t in top]`. -/
def _simple_inference (text : List Char) (top_k : Int) : List ScoredToken :=
  let words := pySplit text
  let scored := List.insertionSort lenGe words
  let top := scored.take (max 1 top_k).toNat
  top.map (fun t => { token := t, score := t.length })

/-- The body of an `HTTPException` raised by the handler. -/
structure HTTPError where
  status : Nat
  detail : List Char
deriving DecidableEq, Repr

/-- The `PredictResponse` model: `input`, `top_k`, `predictions`. -/
structure PredictResponse where
  input : List Char
  top_k : Int
  predictions : List ScoredToken
deriving DecidableEq, Repr

/-- The `/predict` handler from `app/main.py`:
`text = req.text.strip()`; if falsy (empty) raise `HTTPException(400, "text must not be empty")`;
otherwise return `PredictResponse(input=text, top_k=req.top_k,
predictions=_simple_inference(text, req.top_k))`.  The background logging task
has no effect on the response and is not modelled. -/
def predict (text : List Char) (top_k : Int) : Except HTTPError PredictResponse :=
  let t := pyStrip text
  if t = [] then
    Except.error { status := 400, detail := ("text must not be empty").toList }
  else
    Except.ok { input := t, top_k := top_k, predictions := _simple_inference t top_k }

/-! ### Helper lemmas -/

/-- Inserting `w` with `orderedInsert lenGe` leaves the sublist of any fixed
length `n` unchanged except for prepending `w` when `w` itself has length `n`:
the elements `orderedInsert` passes over are strictly longer than `w`. -/
theorem filter_orderedInsert_lenGe (n : Nat) (w : List Char) :
    ∀ l : List (List Char),
      (List.orderedInsert lenGe w l).filter (fun x => x.length == n) =
        if w.length = n then w :: l.filter (fun x => x.length == n)
        else l.filter (fun x => x.length == n)
  | [] => by
    by_cases hw : w.length = n <;>
      simp [List.orderedInsert, List.filter_cons, List.filter_nil, hw]
  | b :: l => by
    by_cases hr : lenGe w b
    · by_cases hw : w.length = n <;>
        simp [List.orderedInsert, hr, List.filter_cons, hw]
    · have hlt : w.length < b.length := by
        simpa [lenGe, Nat.not_le] using hr
      have ih := filter_orderedInsert_lenGe n w l
      by_cases hw : w.length = n
      · have hb : ¬ b.length = n := by omega
        simp [List.orderedInsert, hr, List.filter_cons, hb, ih, hw]
      · simp [List.orderedInsert, hr, List.filter_cons, ih, hw]

/-- Stability of the sort: for every length `n`, the tokens of length `n`
appear in `insertionSort lenGe ws` in exactly the order they had in `ws`. -/
theorem filter_insertionSort_lenGe (n : Nat) :
    ∀ ws : List (List Char),
      (List.insertionSort lenGe ws).filter (fun x => x.length == n) =
        ws.filter (fun x => x.length == n)
  | [] => rfl
  | w :: ws => by
    have ih := filter_insertionSort_lenGe n ws
    by_cases hw : w.length = n <;>
      simp [List.insertionSort, filter_orderedInsert_lenGe, hw, ih, List.filter_cons]

/-- `pySplitAux` never returns the empty list when a token is in progress. -/
theorem pySplitAux_ne_nil_of_acc (s : List Char) :
    ∀ acc : List Char, acc ≠ [] → pySplitAux s acc ≠ [] := by
  induction s with
  | nil => intro acc h; simp [pySplitAux, h]
  | cons c cs ih =>
    intro acc h
    by_cases hc : isPySpace c
    · simp [pySplitAux, hc, h]
    · simpa [pySplitAux, hc] using ih (c :: acc) (by simp)

/-- If the input contains any non-whitespace character, `pySplitAux`
produces at least one token. -/
theorem pySplitAux_ne_nil (s : List Char) :
    ∀ acc : List Char, (∃ c ∈ s, isPySpace c = false) → pySplitAux s acc ≠ [] := by
  induction s with
  | nil => rintro acc ⟨c, hc, _⟩; exact absurd hc (List.not_mem_nil c)
  | cons c cs ih =>
    rintro acc ⟨d, hd, hds⟩
    by_cases hc : isPySpace c
    · have hdcs : d ∈ cs := by
        rcases List.mem_cons.mp hd with rfl | h
        · exact absurd hc (by simp [hds])
        · exact h
      by_cases ha : acc = []
      · simpa [pySplitAux, hc, ha] using ih [] ⟨d, hdcs, hds⟩
      · simp [pySplitAux, hc, ha]
    · simpa [pySplitAux, hc] using pySplitAux_ne_nil_of_acc cs (c :: acc) (by simp)

/-- The head of a surviving `dropWhile` fails the predicate. -/
theorem dropWhile_head_false {α : Type} (p : α → Bool) :
    ∀ (l : List α) (x : α) (xs : List α), l.dropWhile p = x :: xs → p x = false := by
  intro l
  induction l with
  | nil => intro x xs h; simp [List.dropWhile] at h
  | cons c cs ih =>
    intro x xs h
    by_cases hc : p c
    · exact ih x xs (by simpa [List.dropWhile, hc] using h)
    · rw [List.dropWhile_cons_of_neg (by simpa using hc)] at h
      cases h
      simpa using hc

/-- A non-empty stripped string contains a non-whitespace character
(namely its last one). -/
theorem pyStrip_has_nonspace (t : List Char) (h : pyStrip t ≠ []) :
    ∃ c ∈ pyStrip t, isPySpace c = false := by
  rcases hd : (t.dropWhile isPySpace).reverse.dropWhile isPySpace with _ | ⟨x, xs⟩
  · exact absurd (by simp [pyStrip, hd]) h
  · exact ⟨x, by simp [pyStrip, hd], dropWhile_head_false isPySpace _ x xs hd⟩

/-- `pySplit` of a non-empty stripped string is non-empty. -/
theorem pySplit_pyStrip_ne_nil (t : List Char) (h : pyStrip t ≠ []) :
    pySplit (pyStrip t) ≠ [] :=
  pySplitAux_ne_nil (pyStrip t) [] (pyStrip_has_nonspace t h)

/-- The effective slice bound `max(1, top_k)` is at least one. -/
theorem one_le_effective_topk (k : Int) : 1 ≤ (max 1 k).toNat := by
  have h : (1 : Int) ≤ max 1 k := le_max_left 1 k
  omega

/-! ### Claim theorems -/

/-- C1: the predict computation splits the text into whitespace-delimited
tokens and its prediction tokens are the first `max(1, top_k)` elements of the
tokens sorted by descending character length with a stable sort: the token list
of `_simple_inference` equals that prefix, the sorted sequence is pairwise
non-increasing in length, it is a permutation of the tokens, and for every
length the tokens of that length keep their original relative order
(stability). -/
theorem predictions_are_stable_sort_prefix (t : List Char) (k : Int) :
    (_simple_inference t k).map ScoredToken.token
        = (List.insertionSort lenGe (pySplit t)).take (max 1 k).toNat
      ∧ List.Sorted lenGe (List.insertionSort lenGe (pySplit t))
      ∧ (List.insertionSort lenGe (pySplit t)).Perm (pySplit t)
      ∧ ∀ n : Nat,
          (List.insertionSort lenGe (pySplit t)).filter (fun w => w.length == n)
            = (pySplit t).filter (fun w => w.length == n) := by
  refine ⟨?_, List.sorted_insertionSort lenGe _, List.perm_insertionSort lenGe _,
    fun n => filter_insertionSort_lenGe n (pySplit t)⟩
  simp [_simple_inference, List.map_map, Function.comp_def]

/-- C2: `predict` fails if and only if the request text is empty after
trimming, and the only failure it produces is the 400 "text must not be empty"
error. -/
theorem predict_error_iff_blank (t : List Char) (k : Int) :
    ((∃ e, predict t k = Except.error e) ↔ pyStrip t = [])
      ∧ ∀ e, predict t k = Except.error e →
          e = { status := 400, detail := ("text must not be empty").toList } := by
  by_cases h : pyStrip t = [] <;> simp [predict, h]

/-- C3: for every text that is non-empty after trimming, `predict` succeeds
and returns at least one prediction, regardless of `top_k`. -/
theorem predict_nonblank_has_prediction (t : List Char) (k : Int)
    (h : pyStrip t ≠ []) :
    ∃ r, predict t k = Except.ok r ∧ 1 ≤ r.predictions.length := by
  refine ⟨{ input := pyStrip t, top_k := k,
            predictions := _simple_inference (pyStrip t) k },
    by simp [predict, h], ?_⟩
  have hlen : (_simple_inference (pyStrip t) k).length
      = min (max 1 k).toNat (pySplit (pyStrip t)).length := by
    simp [_simple_inference, List.length_take,
      (List.perm_insertionSort lenGe (pySplit (pyStrip t))).length_eq]
  have h1 : 1 ≤ (pySplit (pyStrip t)).length :=
    Nat.one_le_iff_ne_zero.mpr
      (by simpa [List.length_eq_zero] using pySplit_pyStrip_ne_nil t h)
  simpa [hlen] using le_min (one_le_effective_topk k) h1

theorem predict_nonblank_has_prediction_witness :
    pyStrip ("hi").toList ≠ [] ∧
      ∃ r, predict ("hi").toList 0 = Except.ok r ∧ 1 ≤ r.predictions.length :=
  ⟨by decide, predict_nonblank_has_prediction (("hi").toList) 0 (by decide)⟩

/-- C4: any `top_k ≤ 0` produces exactly the same predictions as `top_k = 1`,
on success and on failure alike. -/
theorem nonpositive_topk_floored_to_one (t : List Char) (k : Int) (h : k ≤ 0) :
    Except.map PredictResponse.predictions (predict t k)
      = Except.map PredictResponse.predictions (predict t 1) := by
  have hm : max 1 k = (1 : Int) := max_eq_left (le_trans h zero_le_one)
  by_cases he : pyStrip t = [] <;>
    simp [predict, he, _simple_inference, hm, Except.map]

theorem nonpositive_topk_floored_to_one_witness :
    ((-3 : Int) ≤ 0) ∧
      Except.map PredictResponse.predictions (predict ("a b").toList (-3))
        = Except.map PredictResponse.predictions (predict ("a b").toList 1) :=
  ⟨by decide, nonpositive_topk_floored_to_one (("a b").toList) (-3) (by decide)⟩

/-- C5 counterexample: for requested `top_k = 0` on text `"a"`, the response
echoes the raw requested value `0` in its `top_k` field, not the effective
`max 1 0 = 1` used for selection. -/
theorem predict_topk_echo_counterexample :
    Except.map PredictResponse.top_k (predict ("a").toList 0) = Except.ok 0
      ∧ (0 : Int) ≠ max 1 0 :=
  ⟨rfl, by decide⟩

/-- C5 (amended): the `top_k` field of a successful response equals the
requested `top_k` exactly as submitted (which coincides with the effective
`max(1, top_k)` only when the request's value is at least 1). -/
theorem predict_topk_echoes_request (t : List Char) (k : Int)
    (r : PredictResponse) (h : predict t k = Except.ok r) : r.top_k = k := by
  by_cases he : pyStrip t = []
  · simp [predict, he] at h
  · have hp : predict t k = Except.ok
        { input := pyStrip t, top_k := k,
          predictions := _simple_inference (pyStrip t) k } := by
      simp [predict, he]
    rw [hp] at h
    injection h with h
    subst h
    rfl

theorem predict_topk_echoes_request_witness :
    predict ("a").toList 5 = Except.ok
        { input := ("a").toList, top_k := 5,
          predictions := [{ token := ("a").toList, score := 1 }] }
      ∧ PredictResponse.top_k
          { input := ("a").toList, top_k := 5,
            predictions := [{ token := ("a").toList, score := 1 }] } = 5 :=
  ⟨rfl, predict_topk_echoes_request (("a").toList) 5 _ rfl⟩

/-- C6: each emitted entry pairs a selected token with its character length as
the score, preserving the sorted order: `_simple_inference` is exactly the map
`w ↦ {token := w, score := w.length}` over the selected prefix of the sorted
tokens, and the entries are ordered by non-increasing score. -/
theorem predictions_score_is_length (t : List Char) (k : Int) :
    _simple_inference t k
        = ((List.insertionSort lenGe (pySplit t)).take (max 1 k).toNat).map
            (fun w => { token := w, score := w.length })
      ∧ List.Sorted (fun p q : ScoredToken => q.score ≤ p.score)
          (_simple_inference t k) := by
  refine ⟨rfl, ?_⟩
  have hs : List.Sorted lenGe (List.insertionSort lenGe (pySplit t)) :=
    List.sorted_insertionSort lenGe _
  have ht : List.Sorted lenGe
      ((List.insertionSort lenGe (pySplit t)).take (max 1 k).toNat) :=
    hs.sublist (List.take_sublist _ _)
  exact List.Pairwise.map _ (fun a b hab => hab) ht

/-- C7: on input `"a bb ccc"` with `top_k = 2`, predict returns exactly
`[{token := "ccc", score := 3}, {token := "bb", score := 2}]`, in that order. -/
theorem predict_example_a_bb_ccc :
    Except.map PredictResponse.predictions (predict ("a bb ccc").toList 2)
      = Except.ok [{ token := ("ccc").toList, score := 3 },
                   { token := ("bb").toList, score := 2 }] :=
  rfl

/-- C8: the inference computation is deterministic: equal text and equal
`top_k` produce identical prediction lists. -/
theorem inference_deterministic (t₁ t₂ : List Char) (k₁ k₂ : Int)
    (ht : t₁ = t₂) (hk : k₁ = k₂) :
    _simple_inference t₁ k₁ = _simple_inference t₂ k₂ := by
  rw [ht, hk]

theorem inference_deterministic_witness :
    ("x y").toList = ("x y").toList ∧ (1 : Int) = 1 ∧
      _simple_inference ("x y").toList 1 = _simple_inference ("x y").toList 1 :=
  ⟨rfl, rfl, inference_deterministic _ _ _ _ rfl rfl⟩

/-- C9: the `input` field of a successful response is the trimmed request
text. -/
theorem predict_input_is_trimmed (t : List Char) (k : Int)
    (r : PredictResponse) (h : predict t k = Except.ok r) :
    r.input = pyStrip t := by
  by_cases he : pyStrip t = []
  · simp [predict, he] at h
  · have hp : predict t k = Except.ok
        { input := pyStrip t, top_k := k,
          predictions := _simple_inference (pyStrip t) k } := by
      simp [predict, he]
    rw [hp] at h
    injection h with h
    subst h
    rfl

theorem predict_input_is_trimmed_witness :
    predict ("  a ").toList 1 = Except.ok
        { input := ("a").toList, top_k := 1,
          predictions := [{ token := ("a").toList, score := 1 }] }
      ∧ PredictResponse.input
          { input := ("a").toList, top_k := 1,
            predictions := [{ token := ("a").toList, score := 1 }] }
          = pyStrip ("  a ").toList :=
  ⟨rfl, predict_input_is_trimmed (("  a ").toList) 1 _ rfl⟩

/-- C10: the number of predictions equals
`min (number of whitespace-delimited tokens) (max 1 top_k)`; in particular no
padding ever occurs. -/
theorem predictions_count_min (t : List Char) (k : Int) :
    (_simple_inference t k).length
      = min (pySplit t).length (max 1 k).toNat := by
  simp [_simple_inference, List.length_take,
    (List.perm_insertionSort lenGe (pySplit t)).length_eq, Nat.min_comm]
